import Mathlib

/-!
Verification development for the YouTube-Setm processing pipeline
(src/youtube-setm.py).  The Python source is shallowly embedded: pure
helper functions become Lean functions on `String`/`List`; file lines are
modelled as the list of line contents (the `'\x0a'` terminator that
`readlines` keeps and the writer re-appends is dropped on both sides);
Python floats are modelled as exact rationals `Rat` (the decimal strings
appearing in progress output are far below the precision where IEEE-754
doubles and exact rationals diverge); a raised Python exception is
modelled as `Except.error`/`Option.none`; the per-run boolean
cancellation latch `_is_cancelled` is modelled as a stream of reads
`Nat -> Bool`, one entry per point at which the code reads the flag.
-/

/-- Python `str.strip()` on the character list of a string:
drop whitespace from both ends. -/
def stripChars (l : List Char) : List Char :=
  ((l.dropWhile Char.isWhitespace).reverse.dropWhile Char.isWhitespace).reverse

/-- Python `str.strip()`. -/
def pyStrip (s : String) : String := ⟨stripChars s.data⟩

/-- Python `' '.join(xs)`. -/
def joinSp : List String → String
  | [] => ""
  | [x] => x
  | x :: xs => x ++ " " ++ joinSp xs

/-- The regex `^\d+\s*$` from `translate_srt_file` (line 86): one or more
digits followed only by whitespace (the trailing newline of the raw line
is whitespace, so dropping it preserves the test). -/
def isIndexLine (s : String) : Bool :=
  match s.data with
  | [] => false
  | c :: _ => c.isDigit && (s.data.dropWhile Char.isDigit).all Char.isWhitespace

/-- Scanner for the Python test `'-->' in line` (line 88). -/
def arrowScan : List Char → Bool
  | '-' :: '-' :: '>' :: _ => true
  | _ :: rest => arrowScan rest
  | [] => false

/-- Python `'-->' in line`. -/
def containsArrow (s : String) : Bool := arrowScan s.data

/-- Python `not line.strip()` (line 90): the line is empty or all whitespace. -/
def isBlankLine (s : String) : Bool := s.data.all Char.isWhitespace

/-- One buffered caption text flush from `translate_srt_file`
(lines 91-100 and 105-113).  `tr` is `translate_text_deepseek` with the
API key applied; `none` models a raised exception.  Returns the output
lines together with the single string handed to the translator.
On success the translated text becomes one output line; on failure the
(already stripped) buffered lines are re-emitted. -/
def flushBlock (tr : String → Option String) (buf : List String) :
    List String × List String :=
  let original := pyStrip (joinSp buf)
  match tr original with
  | some t => ([t], [original])
  | none => (buf, [original])

/-- The line loop of `translate_srt_file` (lines 85-113), accumulating the
stripped text lines of the current block in `buf`.  Result: (output lines,
strings passed to the translator, in order). -/
def translateSrtGo (tr : String → Option String) :
    List String → List String → List String × List String
  | buf, [] => if buf.isEmpty then ([], []) else flushBlock tr buf
  | buf, line :: rest =>
    if isIndexLine line then
      let r := translateSrtGo tr buf rest
      (line :: r.1, r.2)
    else if containsArrow line then
      let r := translateSrtGo tr buf rest
      (line :: r.1, r.2)
    else if isBlankLine line then
      if buf.isEmpty then
        let r := translateSrtGo tr [] rest
        ("" :: r.1, r.2)
      else
        let f := flushBlock tr buf
        let r := translateSrtGo tr [] rest
        (f.1 ++ "" :: r.1, f.2 ++ r.2)
    else
      translateSrtGo tr (buf ++ [pyStrip line]) rest

/-- `translate_srt_file` (lines 77-116) on the list of input lines:
the lines written to the output file. -/
def translate_srt_file (tr : String → Option String) (lines : List String) :
    List String :=
  (translateSrtGo tr [] lines).1

/-- The strings `translate_srt_file` hands to the translation call,
in order. -/
def translate_srt_calls (tr : String → Option String) (lines : List String) :
    List String :=
  (translateSrtGo tr [] lines).2

/-- One timed caption block of an SRT file: index line, timing line,
text lines (spec section 3, CaptionBlock). -/
structure CaptionBlock where
  index : String
  timing : String
  text : List String
deriving Repr, DecidableEq

/-- The lines of one block in an SRT file, with its blank separator. -/
def renderBlock (b : CaptionBlock) : List String :=
  b.index :: b.timing :: b.text ++ [""]

/-- The lines of a whole SRT file made of the given blocks. -/
def renderSrt (bs : List CaptionBlock) : List String :=
  (bs.map renderBlock).flatten

/-- Structural well-formedness of a block as the parser of
`translate_srt_file` classifies lines: the index line matches `^\d+\s*$`,
the timing line contains `-->` and is not digit-shaped, and every text
line is a genuine text line (non-blank, not an index line, no `-->`). -/
def wfBlock (b : CaptionBlock) : Bool :=
  isIndexLine b.index && containsArrow b.timing && !isIndexLine b.timing &&
  !b.text.isEmpty &&
  b.text.all (fun l => !isIndexLine l && !containsArrow l && !isBlankLine l)

/-- The single string `translate_srt_file` sends to the translator for a
block: text lines stripped, joined by single spaces, stripped again. -/
def blockOriginal (b : CaptionBlock) : String :=
  pyStrip (joinSp (b.text.map pyStrip))

/-- What `translate_srt_file` turns one block into: translated text as a
single line on success, the stripped original text lines on failure;
index and timing lines untouched. -/
def translateBlock (tr : String → Option String) (b : CaptionBlock) :
    CaptionBlock :=
  match tr (blockOriginal b) with
  | some t => ⟨b.index, b.timing, [t]⟩
  | none => ⟨b.index, b.timing, b.text.map pyStrip⟩

/-! ## clean_youtube_url (lines 118-128)

The two anchored regular expressions are embedded as explicit matchers on
character lists.  `re.match` anchors at the start only; group 1 spans the
whole pattern, so the returned string is the consumed input. -/

/-- A character of the regex class `[a-zA-Z0-9_-]`. -/
def isIdChar (c : Char) : Bool :=
  c.isAlpha || c.isDigit || c = '_' || c = '-'

/-- Match a literal character sequence at the head of the input and
return the remainder. -/
def litM : List Char → List Char → Option (List Char)
  | [], s => some s
  | c :: cs, d :: ds => if c = d then litM cs ds else none
  | _ :: _, [] => none

/-- Greedy `[a-zA-Z0-9_-]+`: one or more id characters, returning the
consumed run and the remainder. -/
def idsM (s : List Char) : Option (List Char × List Char) :=
  match s.takeWhile isIdChar with
  | [] => none
  | ids => some (ids, s.dropWhile isIdChar)

/-- The `https?://` part shared by both patterns: returns the consumed
scheme and the remainder. -/
def schemeM (s : List Char) : Option (List Char × List Char) :=
  match litM "http".data s with
  | none => none
  | some r =>
    match r with
    | [] => none
    | c :: r2 =>
      if c = 's' then
        match litM "://".data r2 with
        | none => none
        | some rest => some ("https://".data, rest)
      else
        match litM "://".data (c :: r2) with
        | none => none
        | some rest => some ("http://".data, rest)

/-- Match `youtube.com/watch?v=` followed by the video id; returns the
consumed characters. -/
def watchTailM (s : List Char) : Option (List Char) :=
  match litM "youtube.com/watch?v=".data s with
  | none => none
  | some r =>
    match idsM r with
    | none => none
    | some (ids, _) => some ("youtube.com/watch?v=".data ++ ids)

/-- One alternative of `(?:www\.|m\.|music\.)?` followed by the watch
tail. -/
def altM (pre : String) (s : List Char) : Option (List Char) :=
  match litM pre.data s with
  | none => none
  | some r => (watchTailM r).map (fun t => pre.data ++ t)

/-- The optional domain label alternation followed by the watch tail;
the alternatives and the empty case are first-character disjoint once the
mandatory `youtube.com` continuation is taken into account, so ordered
committed choice coincides with regex backtracking here. -/
def domTailM (s : List Char) : Option (List Char) :=
  match altM "www." s with
  | some g => some g
  | none =>
    match altM "m." s with
    | some g => some g
    | none =>
      match altM "music." s with
      | some g => some g
      | none => watchTailM s

/-- The first pattern
`(https?://(?:www\.|m\.|music\.)?youtube\.com/watch\?v=[a-zA-Z0-9_-]+)`
anchored at the start; returns group 1. -/
def pat1M (s : List Char) : Option (List Char) :=
  match schemeM s with
  | none => none
  | some (g, rest) => (domTailM rest).map (fun t => g ++ t)

/-- The second pattern `(https?://youtu\.be/[a-zA-Z0-9_-]+)` anchored at
the start; returns group 1. -/
def pat2M (s : List Char) : Option (List Char) :=
  match schemeM s with
  | none => none
  | some (g, rest) =>
    match litM "youtu.be/".data rest with
    | none => none
    | some r =>
      match idsM r with
      | none => none
      | some (ids, _) => some (g ++ "youtu.be/".data ++ ids)

/-- `clean_youtube_url` (lines 118-128): return the first pattern match
anchored at the start, else the input unchanged. -/
def clean_youtube_url (url : String) : String :=
  match pat1M url.data with
  | some g => ⟨g⟩
  | none =>
    match pat2M url.data with
    | some g => ⟨g⟩
    | none => url

/-! ## Progress interpreters -/

/-- Truncation toward zero, the behaviour of Python `int()` on a float. -/
def pyTrunc (q : Rat) : Int := if 0 ≤ q then ⌊q⌋ else ⌈q⌉

/-- Value of a digit run. -/
def digitsToNat (l : List Char) : Nat :=
  l.foldl (fun a c => a * 10 + (c.toNat - 48)) 0

/-- Value of the fractional digit run `d1 d2 ...` as `0.d1d2...`. -/
def fracVal : List Char → Rat
  | [] => 0
  | c :: cs => (((c.toNat - 48 : Nat) : Rat) + fracVal cs) / 10

/-- Exponent suffix of a Python float literal: at least one digit after an
optional sign, and nothing after it. -/
def expDigits (m : Rat) (sign : Int) (l : List Char) : Option Rat :=
  match l.takeWhile Char.isDigit with
  | [] => none
  | d =>
    if (l.dropWhile Char.isDigit).isEmpty then
      some (m * (10 : Rat) ^ (sign * (digitsToNat d : Int)))
    else none

/-- Optional `e`/`E` exponent after the mantissa. -/
def parseExp (m : Rat) : List Char → Option Rat
  | [] => some m
  | c :: t =>
    if c = 'e' || c = 'E' then
      match t with
      | '+' :: t2 => expDigits m 1 t2
      | '-' :: t2 => expDigits m (-1) t2
      | t2 => expDigits m 1 t2
    else none

/-- Mantissa of a Python float literal: `digits [. digits]` or `. digits`,
then an optional exponent. -/
def parseBody (l : List Char) : Option Rat :=
  let ip := l.takeWhile Char.isDigit
  let r1 := l.dropWhile Char.isDigit
  match r1 with
  | '.' :: t =>
    let fp := t.takeWhile Char.isDigit
    if ip.isEmpty && fp.isEmpty then none
    else parseExp ((digitsToNat ip : Rat) + fracVal fp) (t.dropWhile Char.isDigit)
  | _ =>
    if ip.isEmpty then none
    else parseExp (digitsToNat ip : Rat) r1

/-- Python `float(s)` on an already stripped string, as an exact rational:
optional sign, decimal mantissa, optional exponent.  (The `inf`/`nan`
words and underscore separators accepted by Python never occur in percent
strings and are not modelled.)  `none` models a raised `ValueError`. -/
def parsePyFloat? (s : String) : Option Rat :=
  match s.data with
  | '+' :: t => parseBody t
  | '-' :: t => (parseBody t).map (fun q => -q)
  | t => parseBody t

/-- Tail of one ANSI escape after the initial `ESC`, following the
`ansi_escape_pattern` regex of `progress_hook` (line 387): either a single
byte in the ranges 0x40-0x5A or 0x5C-0x5F, or a CSI sequence: an opening
bracket, parameter bytes 0x30-0x3F, intermediate bytes 0x20-0x2F, and one
final byte 0x40-0x7E.  The byte ranges are disjoint, so greedy committed
scanning equals regex matching. -/
def ansiTail (l : List Char) : Option (List Char) :=
  match l with
  | [] => none
  | c :: rest =>
    if (64 ≤ c.toNat && c.toNat ≤ 90) || (92 ≤ c.toNat && c.toNat ≤ 95) then
      some rest
    else if c = '[' then
      let r1 := rest.dropWhile (fun d => 48 ≤ d.toNat && d.toNat ≤ 63)
      let r2 := r1.dropWhile (fun d => 32 ≤ d.toNat && d.toNat ≤ 47)
      match r2 with
      | d :: r3 => if 64 ≤ d.toNat && d.toNat ≤ 126 then some r3 else none
      | [] => none
    else none

/-- Remove every ANSI escape sequence, as `ansi_escape_pattern.sub('', s)`
does; an `ESC` that heads no complete sequence is left in place.  The fuel
argument starts at the input length — every step consumes at least one
input character, so it never runs out. -/
def stripAnsiGo : Nat → List Char → List Char
  | 0, l => l
  | _, [] => []
  | fuel + 1, c :: rest =>
    if c = '\x1B' then
      match ansiTail rest with
      | some r2 => stripAnsiGo fuel r2
      | none => c :: stripAnsiGo fuel rest
    else c :: stripAnsiGo fuel rest

/-- ANSI escape stripping on a string. -/
def stripAnsi (s : String) : String := ⟨stripAnsiGo s.data.length s.data⟩

/-- The percent text cleanup of `progress_hook` (line 392): strip escapes,
delete every `%`, strip whitespace. -/
def cleanPercent (s : String) : String :=
  pyStrip ⟨(stripAnsi s).data.filter (fun c => c ≠ '%')⟩

/-- The speed text cleanup of `progress_hook` (line 393): strip escapes,
strip whitespace. -/
def cleanSpeed (s : String) : String := pyStrip (stripAnsi s)

/-- The download-progress payload dictionary as `progress_hook` reads it:
`d['status']` (a missing key would raise, so it is mandatory here) and the
two optional text fields read with `d.get`. -/
structure HookPayload where
  status : String
  percentStr : Option String
  speedStr : Option String
deriving Repr, DecidableEq

/-- The message of the `TypeError` raised when the `except ValueError`
branch of `progress_hook` (line 398) executes: it calls the bound signal
object `self.log_message(...)` instead of `self.log_message.emit(...)`,
and a PyQt signal object is not callable. -/
def pyqtSignalCallError : String :=
  "TypeError: native Qt signal is not callable"

/-- `ProcessingThread.progress_hook` (lines 383-400).  Returns the emitted
`(percent, detail)` progress update, `none` when no update is emitted, and
`Except.error` when the hook raises: `DownloadCancelled` when the
cancellation flag is set, and the `TypeError` of line 398 when the percent
text does not parse as a float. -/
def progress_hook (cancelled : Bool) (d : HookPayload) :
    Except String (Option (Int × String)) :=
  if cancelled then .error "DownloadCancelled"
  else if d.status = "downloading" then
    let pclean := cleanPercent (d.percentStr.getD "0.0%")
    let sclean := cleanSpeed (d.speedStr.getD "N/A")
    match parsePyFloat? pclean with
    | some q => .ok (some (pyTrunc q, sclean))
    | none => .error pyqtSignalCallError
  else if d.status = "finished" then .ok (some (100, "Finalizing..."))
  else .ok none

/-- Scanner for the Python test `"time=" in line` (line 372). -/
def timeEqScan : List Char → Bool
  | 't' :: 'i' :: 'm' :: 'e' :: '=' :: _ => true
  | _ :: rest => timeEqScan rest
  | [] => false

/-- Two-digit value. -/
def d2 (a b : Char) : Nat := (a.toNat - 48) * 10 + (b.toNat - 48)

/-- The regex `time=(\d{2}):(\d{2}):(\d{2})\.(\d{2})` (line 373) tested at
the head of the input. -/
def matchTimeAt (l : List Char) : Option (Nat × Nat × Nat × Nat) :=
  match l with
  | 't' :: 'i' :: 'm' :: 'e' :: '=' :: a1 :: a2 :: ':' :: b1 :: b2 :: ':'
      :: c1 :: c2 :: '.' :: e1 :: e2 :: _ =>
    if a1.isDigit && a2.isDigit && b1.isDigit && b2.isDigit &&
       c1.isDigit && c2.isDigit && e1.isDigit && e2.isDigit then
      some (d2 a1 a2, d2 b1 b2, d2 c1 c2, d2 e1 e2)
    else none
  | _ => none

/-- `re.search` for the timestamp pattern: first match anywhere. -/
def findTime : List Char → Option (Nat × Nat × Nat × Nat)
  | [] => none
  | c :: rest =>
    match matchTimeAt (c :: rest) with
    | some r => some r
    | none => findTime rest

/-- The per-line encode progress computation of `_synthesize_video`
(lines 372-378): if the line contains `time=`, the strict timestamp
pattern matches, and the total duration is positive, emit
`int(elapsed / total * 100)` with its detail text; else no update. -/
def encode_progress (total : Rat) (line : String) : Option (Int × String) :=
  if timeEqScan line.data then
    match findTime line.data with
    | some (h, m, s, hs) =>
      if 0 < total then
        let elapsed : Rat := (h : Rat) * 3600 + (m : Rat) * 60 + (s : Rat)
          + (hs : Rat) / 100
        let prog := pyTrunc (elapsed / total * 100)
        some (prog, toString prog ++ "% encoded")
      else none
    | none => none
  else none

/-! ## Subprocess executor (`_run_subprocess`, lines 309-324)

The merged stdout/stderr stream is the list of produced lines; the
cancellation latch is a read stream `Nat -> Bool` (read 0 happens before
line 0, and the final read guards the exit-code check after the stream is
exhausted).  A raised `RuntimeError` is the `failed` status; both other
statuses are normal returns. -/

/-- Terminal status of one subprocess execution. -/
inductive ExitStatus where
  | completed
  | cancelled
  | failed (code : Int)
deriving Repr, DecidableEq

/-- Observable outcome of `_run_subprocess`: status, the log lines it
emitted, and whether `terminate()` was sent to the process. -/
structure SubprocRun where
  status : ExitStatus
  logs : List String
  terminated : Bool
deriving Repr, DecidableEq

/-- The line loop and exit check of `_run_subprocess` (lines 315-324).
Each iteration reads the flag once; the stream is shifted by one on
recursion, so read `i` of the original stream guards line `i`, and the
final exit-code check reads the flag once more. -/
def run_go (cancel : Nat → Bool) (code : Int) : List String → SubprocRun
  | [] =>
    if code ≠ 0 ∧ cancel 0 = false then ⟨.failed code, [], false⟩
    else ⟨.completed, [], false⟩
  | l :: ls =>
    if cancel 0 then ⟨.cancelled, ["[INFO] Process terminated by user."], true⟩
    else
      let r := run_go (fun n => cancel (n + 1)) code ls
      ⟨r.status, pyStrip l :: r.logs, r.terminated⟩

/-- `_run_subprocess` (lines 309-324): logs the command line, then runs
the line loop. -/
def run_subprocess (cancel : Nat → Bool) (cmd : List String)
    (lines : List String) (code : Int) : SubprocRun :=
  let r := run_go cancel code lines
  ⟨r.status, ("[CMD] " ++ joinSp cmd) :: r.logs, r.terminated⟩

/-! ## Bitrate probe and encoder invocation -/

/-- The validity check both probes of `get_video_bitrate` apply to the
captured stdout (lines 41-42, 53-54): stripped, non-empty, all digits,
positive. -/
def validBitrate (out : String) : Option String :=
  let b := pyStrip out
  if b ≠ "" ∧ b.data.all Char.isDigit ∧ 0 < digitsToNat b.data then some b
  else none

/-- The format-level fallback probe of `get_video_bitrate`
(lines 47-57). -/
def fmtProbe (fp : Option String) : Option String :=
  match fp with
  | some out => validBitrate out
  | none => none

/-- `get_video_bitrate` (lines 33-59).  `sp`/`fp` are the stdout of the
stream-level and format-level ffprobe invocation (`none` models a raised
`CalledProcessError`/`FileNotFoundError`).  An invalid or failed stream
probe falls through to the format probe. -/
def get_video_bitrate (sp fp : Option String) : Option String :=
  match sp with
  | some out =>
    match validBitrate out with
    | some b => some b
    | none => fmtProbe fp
  | none => fmtProbe fp

/-- The ffmpeg command `_synthesize_video` builds (lines 354-362): the
bit-rate-matched branch when the probe returned a value, the constant
quality factor branch (`-crf 23`) otherwise. -/
def synthesize_cmd (vPath fs : String) (bitrate : Option String)
    (oPath : String) : List String :=
  ["ffmpeg", "-i", vPath, "-vf", fs] ++
  (match bitrate with
   | some b => ["-c:v", "libx264", "-preset", "medium", "-b:v", b]
   | none => ["-c:v", "libx264", "-preset", "medium", "-crf", "23"]) ++
  ["-c:a", "copy", "-y", oPath]

/-- The log line `_synthesize_video` emits after the probe and before the
`[CMD]` line and the subprocess launch (lines 357 and 360). -/
def synthesize_prelog (bitrate : Option String) : List String :=
  match bitrate with
  | some b => ["[INFO] Detected original bitrate: " ++ b ++ " bps. Using it for encoding."]
  | none => ["[WARN] Could not detect bitrate. Using CRF=23 for encoding."]

/-- The subtitle filter expression of line 353 (the absolute-path and
platform escaping of lines 350-352 is outside the model). -/
def filterStr (sPath : String) : String :=
  "subtitles=\x27" ++ sPath ++ "\x27"

/-! ## Stage orchestrator (`ProcessingThread`, lines 227-407)

Events are the four pyqtSignal emissions; `finished` is the terminal
RunResult `(success, message, final_path)`.  yt-dlp progress-hook
emissions inside a download are interpreted by `progress_hook` above and
are not replayed in the event list (they reach the observer through the
same `progress_update` signal but carry no terminal information). -/

/-- One emitted signal of `ProcessingThread`. -/
inductive Ev where
  | stage (s : String)
  | progress (p : Int) (s : String)
  | log (s : String)
  | info
  | finished (ok : Bool) (msg : String) (path : String)
deriving Repr, DecidableEq

/-- The finished-signal test. -/
def isFin : Ev → Bool
  | .finished _ _ _ => true
  | _ => false

/-- The terminal RunResult emissions contained in an event trace. -/
def results (evs : List Ev) : List Ev := evs.filter isFin

/-- The two events of the `except` handler of `run` (lines 252-256):
error log, then `finished(False, str(e), "")`. -/
def exceptEvs (m : String) : List Ev :=
  [.log ("[ERROR] A critical error occurred: " ++ m), .finished false m ""]

/-- Characters removed by the sanitisation `re.sub(r'[\\/*?:"<>|]', "", title)`
of `_process_video` (line 279). -/
def isHostile (c : Char) : Bool :=
  c = '\\' || c = '/' || c = '*' || c = '?' || c = ':' || c = '"' ||
  c = '<' || c = '>' || c = '|'

/-- The sanitised title used as the base of the Video-branch file names. -/
def sanitize_title (t : String) : String :=
  ⟨t.data.filter (fun c => !isHostile c)⟩

/-- POSIX `os.path.join` for a directory without trailing separator. -/
def pathJoin (dir name : String) : String := dir ++ "/" ++ name

/-- The final path the Audio branch reports (line 262): derived from the
raw, unsanitised title. -/
def audio_final_path (dir title : String) : String :=
  pathJoin dir (title ++ ".mp3")

/-- The four derived file paths of `_process_video` (lines 279-283), all
built from the sanitised title. -/
def video_output_paths (dir title : String) : List String :=
  let base := sanitize_title title
  [pathJoin dir (base ++ ".mp4"), pathJoin dir (base ++ ".srt"),
   pathJoin dir (base ++ "_zh.srt"), pathJoin dir (base ++ "_translated.mp4")]

/-- The whisper command of `_extract_subtitles` (line 337). -/
def whisperCmd (vPath model lang outDir : String) : List String :=
  ["whisper", vPath, "--model", model, "--language", lang,
   "--output_format", "srt", "--output_dir", outDir]

/-- Environment of one Audio run: the URL/output directory options, the
metadata fetch outcome (`ok title` or a raised exception), the flag read
of line 245, the `ydl.download` outcome (a cancellation tripped inside the
progress hook surfaces as the raised `DownloadCancelled`), and the flag
read of line 275. -/
structure AudioEnv where
  url : String
  output_dir : String
  fetch : Except String String
  c0 : Bool
  download : Except String Unit
  cEnd : Bool

/-- `ProcessingThread.run` with `type = Audio` (lines 227-276): the
ordered trace of emitted signals. -/
def run_audio (e : AudioEnv) : List Ev :=
  [.stage "Getting video information...",
   .log ("[INFO] Getting info for URL: " ++ e.url)] ++
  match e.fetch with
  | .error m => exceptEvs m
  | .ok title =>
    .info ::
    if e.c0 then [] else
      .stage "Step 1/1: Downloading Audio (MP3)" ::
      match e.download with
      | .error m => exceptEvs m
      | .ok _ =>
        if e.cEnd then []
        else [.finished true "Audio download completed successfully!"
                (audio_final_path e.output_dir title)]

/-- Environment of one Video run: per-stage outcomes and one flag read per
cancellation checkpoint of `_process_video` (lines 286, 289, 292, 295).
The whisper and ffmpeg stages carry their own line streams, exit codes
and flag-read streams; the translation stage outcome abstracts
`translate_srt_file` whole-file I/O (`error` = raised exception —
per-block translation failures never raise, see `translate_srt_file`). -/
structure VideoEnv where
  url : String
  output_dir : String
  model : String
  lang : String
  apiKey : String
  fetch : Except String String
  c0 : Bool
  dl : Except String Unit
  c1 : Bool
  wCancel : Nat → Bool
  wLines : List String
  wExit : Int
  c2 : Bool
  tIO : Except String Unit
  c3 : Bool
  sBitrate : Option String
  sTotal : Rat
  sCancel : Nat → Bool
  sLines : List String
  sExit : Int
  c4 : Bool

/-- The ffmpeg line loop of `_synthesize_video` (lines 366-378): events
plus whether the loop returned early after `terminate()`. -/
def synth_loop (cancel : Nat → Bool) (total : Rat) :
    List String → List Ev × Bool
  | [] => ([], false)
  | l :: ls =>
    if cancel 0 then ([.log "[INFO] FFmpeg process terminated by user."], true)
    else
      let r := synth_loop (fun n => cancel (n + 1)) total ls
      ((.log (pyStrip l) :: (match encode_progress total l with
          | some (p, s) => [.progress p s]
          | none => [])) ++ r.1, r.2)

/-- The events of `_synthesize_video` up to and including its line loop
(lines 348-378): stage change, probe log, command log, loop events. -/
def synth_events (sBitrate : Option String) (sCancel : Nat → Bool)
    (sTotal : Rat) (sLines : List String) (vPath tPath fPath : String) :
    List Ev :=
  .stage "Step 4/4: Encoding Final Video (FFmpeg)" ::
  ((synthesize_prelog sBitrate).map Ev.log) ++
  [.log ("[CMD] " ++ joinSp (synthesize_cmd vPath (filterStr tPath) sBitrate fPath))] ++
  (synth_loop sCancel sTotal sLines).1

/-- The return/raise behaviour of `_synthesize_video` (lines 379-381):
after an early cancelled return nothing more happens; otherwise the
process is reaped and a non-zero exit without a set flag raises. -/
def synth_status (sCancel : Nat → Bool) (sTotal : Rat)
    (sLines : List String) (sExit : Int) : Except String Unit :=
  if (synth_loop sCancel sTotal sLines).2 then .ok ()
  else if sExit ≠ 0 ∧ sCancel sLines.length = false then
    .error "FFmpeg failed to synthesize the video."
  else .ok ()

/-- `_process_video` (lines 278-307) after a successful metadata fetch:
the ordered trace of emitted signals. -/
def video_body (e : VideoEnv) (title : String) : List Ev :=
  let base := sanitize_title title
  let vPath := pathJoin e.output_dir (base ++ ".mp4")
  let tPath := pathJoin e.output_dir (base ++ "_zh.srt")
  let fPath := pathJoin e.output_dir (base ++ "_translated.mp4")
  .stage "Step 1/4: Downloading Video" ::
  match e.dl with
  | .error m => exceptEvs m
  | .ok _ =>
    if e.c1 then [] else
      .stage "Step 2/4: Extracting Subtitles (Whisper)" ::
      .progress 0 "Initializing Whisper... This may take a while." ::
      (let w := run_subprocess e.wCancel (whisperCmd vPath e.model e.lang e.output_dir)
          e.wLines e.wExit
       (w.logs.map Ev.log) ++
       match w.status with
       | .failed c =>
         exceptEvs ("A subprocess failed with exit code " ++ toString c ++ ".")
       | _ =>
         if e.c2 then [] else
           .stage "Step 3/4: Translating Subtitles (DeepSeek API)" ::
           .progress 0 "Sending text to translation API..." ::
           if e.apiKey = "" then
             exceptEvs "DeepSeek API Key is missing. Please set it in the Settings tab."
           else match e.tIO with
           | .error m => exceptEvs m
           | .ok _ =>
             .log "[INFO] Subtitles translated successfully." ::
             if e.c3 then [] else
               synth_events e.sBitrate e.sCancel e.sTotal e.sLines vPath tPath fPath ++
               match synth_status e.sCancel e.sTotal e.sLines e.sExit with
               | .error m => exceptEvs m
               | .ok _ =>
                 if e.c4 then []
                 else [.finished true "Video processing completed successfully!" fPath])

/-- `ProcessingThread.run` with `type = Video` (lines 227-256 and
278-307): the ordered trace of emitted signals. -/
def run_video (e : VideoEnv) : List Ev :=
  [.stage "Getting video information...",
   .log ("[INFO] Getting info for URL: " ++ e.url)] ++
  match e.fetch with
  | .error m => exceptEvs m
  | .ok title =>
    .info ::
    if e.c0 then [] else video_body e title

/-- Closed form of the terminal RunResult emissions of a Video run. -/
def video_results_spec (e : VideoEnv) : List Ev :=
  match e.fetch with
  | .error m => [.finished false m ""]
  | .ok title =>
    if e.c0 then [] else
    match e.dl with
    | .error m => [.finished false m ""]
    | .ok _ =>
      if e.c1 then [] else
      match (run_go e.wCancel e.wExit e.wLines).status with
      | .failed c =>
        [.finished false ("A subprocess failed with exit code " ++ toString c ++ ".") ""]
      | _ =>
        if e.c2 then [] else
        if e.apiKey = "" then
          [.finished false "DeepSeek API Key is missing. Please set it in the Settings tab." ""]
        else match e.tIO with
        | .error m => [.finished false m ""]
        | .ok _ =>
          if e.c3 then [] else
          match synth_status e.sCancel e.sTotal e.sLines e.sExit with
          | .error m => [.finished false m ""]
          | .ok _ =>
            if e.c4 then []
            else [.finished true "Video processing completed successfully!"
                   (pathJoin e.output_dir (sanitize_title title ++ "_translated.mp4"))]

/-- Closed form of the terminal RunResult emissions of an Audio run. -/
def audio_results_spec (e : AudioEnv) : List Ev :=
  match e.fetch with
  | .error m => [.finished false m ""]
  | .ok title =>
    if e.c0 then [] else
    match e.download with
    | .error m => [.finished false m ""]
    | .ok _ =>
      if e.cEnd then []
      else [.finished true "Audio download completed successfully!"
             (audio_final_path e.output_dir title)]

/-- Replace the bit-rate probe result of a Video environment. -/
def setBitrate (e : VideoEnv) (b : Option String) : VideoEnv :=
  { e with sBitrate := b }


/-! ## Lemmas about event traces -/

@[simp] theorem isFin_stage (s : String) : isFin (.stage s) = false := rfl

@[simp] theorem isFin_progress (p : Int) (s : String) : isFin (.progress p s) = false := rfl

@[simp] theorem isFin_log (s : String) : isFin (.log s) = false := rfl

@[simp] theorem isFin_info : isFin .info = false := rfl

@[simp] theorem isFin_finished (b : Bool) (m p : String) : isFin (.finished b m p) = true := rfl

@[simp] theorem results_nil : results [] = [] := rfl

@[simp] theorem results_cons (e : Ev) (evs : List Ev) :
    results (e :: evs) = (if isFin e then [e] else []) ++ results evs := by
  simp only [results, List.filter_cons]
  split <;> simp_all

@[simp] theorem results_append (a b : List Ev) :
    results (a ++ b) = results a ++ results b := by
  simp [results, List.filter_append]

@[simp] theorem results_map_log (l : List String) : results (l.map Ev.log) = [] := by
  induction l with
  | nil => rfl
  | cons a t ih => simp [ih]

@[simp] theorem results_exceptEvs (m : String) :
    results (exceptEvs m) = [.finished false m ""] := by
  simp [exceptEvs]

@[simp] theorem run_subprocess_status (c : Nat → Bool) (cmd l : List String) (x : Int) :
    (run_subprocess c cmd l x).status = (run_go c x l).status := rfl

@[simp] theorem run_subprocess_logs (c : Nat → Bool) (cmd l : List String) (x : Int) :
    (run_subprocess c cmd l x).logs = ("[CMD] " ++ joinSp cmd) :: (run_go c x l).logs := rfl

@[simp] theorem run_subprocess_terminated (c : Nat → Bool) (cmd l : List String) (x : Int) :
    (run_subprocess c cmd l x).terminated = (run_go c x l).terminated := rfl

@[simp] theorem results_synth_loop (c : Nat → Bool) (t : Rat) (ls : List String) :
    results (synth_loop c t ls).1 = [] := by
  induction ls generalizing c with
  | nil => rfl
  | cons l tl ih =>
    unfold synth_loop
    by_cases h : c 0 = true
    · simp [h]
    · simp only [Bool.not_eq_true] at h
      cases he : encode_progress t l <;> simp [h, he, ih]

@[simp] theorem results_synth_events (sB : Option String) (sC : Nat → Bool) (sT : Rat)
    (sL : List String) (vP tP fP : String) :
    results (synth_events sB sC sT sL vP tP fP) = [] := by
  simp [synth_events]

theorem results_run_audio (e : AudioEnv) :
    results (run_audio e) = audio_results_spec e := by
  obtain ⟨url, odir, fetch, c0, dl, cEnd⟩ := e
  simp only [run_audio, audio_results_spec]
  cases fetch with
  | error m => simp
  | ok title =>
    cases c0 with
    | true => simp
    | false =>
      cases dl with
      | error m => simp
      | ok _ =>
        cases cEnd with
        | true => simp
        | false => simp

theorem results_run_video (e : VideoEnv) :
    results (run_video e) = video_results_spec e := by
  obtain ⟨url, odir, model, lang, key, fetch, c0, dl, c1, wC, wL, wE, c2, tIO, c3,
    sB, sT, sC, sL, sE, c4⟩ := e
  simp only [run_video, video_body, video_results_spec]
  cases fetch with
  | error m => simp
  | ok title =>
    cases c0 with
    | true => simp
    | false =>
      cases dl with
      | error m => simp
      | ok _ =>
        cases c1 with
        | true => simp
        | false =>
          rcases hw : (run_go wC wE wL).status with _ | _ | c <;>
            simp only [run_subprocess_status, hw] <;>
            [skip; skip;
             simp [results_append, results_map_log]] <;>
            cases c2 <;>
            [skip; simp; skip; simp] <;>
            by_cases hk : key = "" <;>
            [simp [hk]; skip; simp [hk]; skip] <;>
            cases tIO <;>
            [simp [hk]; skip; simp [hk]; skip] <;>
            cases c3 <;>
            [simp [hk]; skip; simp [hk]; skip] <;>
            rcases hs : synth_status sC sT sL sE with _ | m <;>
            cases c4 <;>
            simp [hk, hs]

/-! ## Subprocess executor lemmas (claim C5) -/

theorem run_go_failed_iff (cancel : Nat → Bool) (code : Int) (lines : List String)
    (mono : ∀ i j, i ≤ j → cancel i = true → cancel j = true) (c : Int) :
    (run_go cancel code lines).status = .failed c ↔
      (c = code ∧ code ≠ 0 ∧ cancel lines.length = false) := by
  induction lines generalizing cancel with
  | nil =>
    unfold run_go
    by_cases h : code ≠ 0 ∧ cancel 0 = false
    · simp only [if_pos h]
      constructor
      · intro he
        cases he
        exact ⟨rfl, h.1, h.2⟩
      · rintro ⟨rfl, _, _⟩
        rfl
    · simp only [if_neg h]
      constructor
      · intro he
        cases he
      · rintro ⟨rfl, h1, h2⟩
        exact absurd ⟨h1, h2⟩ h
  | cons l ls ih =>
    unfold run_go
    by_cases h : cancel 0 = true
    · simp only [if_pos h]
      constructor
      · intro he
        cases he
      · rintro ⟨rfl, _, hc⟩
        have := mono 0 (l :: ls).length (Nat.zero_le _) h
        rw [this] at hc
        cases hc
    · simp only [Bool.not_eq_true] at h
      simp only [h, if_false, Bool.false_eq_true]
      have ih2 := ih (fun n => cancel (n + 1))
        (fun i j hij hc => mono (i + 1) (j + 1) (by omega) hc) 
      simpa using ih2

theorem run_go_cancelled (cancel : Nat → Bool) (code : Int) (lines : List String)
    (h : ∃ i, i < lines.length ∧ cancel i = true) :
    (run_go cancel code lines).status = .cancelled ∧
    (run_go cancel code lines).terminated = true ∧
    ∃ k, k < lines.length ∧
      (run_go cancel code lines).logs =
        (lines.take k).map pyStrip ++ ["[INFO] Process terminated by user."] := by
  induction lines generalizing cancel with
  | nil =>
    obtain ⟨i, hi, _⟩ := h
    exact absurd hi (by simp)
  | cons l ls ih =>
    unfold run_go
    by_cases hc : cancel 0 = true
    · simp only [if_pos hc]
      refine ⟨trivial, trivial, 0, ?_, ?_⟩
      · simp
      · simp
    · simp only [Bool.not_eq_true] at hc
      simp only [hc, if_false, Bool.false_eq_true]
      obtain ⟨i, hi, hci⟩ := h
      have hipos : i ≠ 0 := by
        rintro rfl
        rw [hci] at hc
        cases hc
      obtain ⟨j, rfl⟩ := Nat.exists_eq_succ_of_ne_zero hipos
      have ih2 := ih (fun n => cancel (n + 1)) ⟨j, by simpa using hi, hci⟩
      refine ⟨ih2.1, ih2.2.1, ?_⟩
      obtain ⟨k, hk, hlogs⟩ := ih2.2.2
      exact ⟨k + 1, by simpa using hk, by simp [hlogs]⟩

/-! ## Subtitle translator lemmas (claims C2, C6) -/

theorem translateSrtGo_text (tr : String → Option String) (ts : List String)
    (h : ∀ l ∈ ts, isIndexLine l = false ∧ containsArrow l = false ∧ isBlankLine l = false)
    (buf rest : List String) :
    translateSrtGo tr buf (ts ++ rest) = translateSrtGo tr (buf ++ ts.map pyStrip) rest := by
  induction ts generalizing buf with
  | nil => simp
  | cons t ts ih =>
    have ht := h t (by simp)
    have hrec := ih (fun l hl => h l (by simp [hl])) (buf ++ [pyStrip t])
    simp only [List.cons_append, translateSrtGo, ht.1, ht.2.1, ht.2.2,
      Bool.false_eq_true, if_false, List.append_eq]
    rw [hrec]
    simp [List.append_assoc]

theorem translateSrtGo_render (tr : String → Option String) (bs : List CaptionBlock)
    (h : ∀ b ∈ bs, wfBlock b = true) :
    translateSrtGo tr [] (renderSrt bs) =
      (renderSrt (bs.map (translateBlock tr)), bs.map blockOriginal) := by
  induction bs with
  | nil => rfl
  | cons b bs ih =>
    have hb := h b (by simp)
    simp only [wfBlock, Bool.and_eq_true, Bool.not_eq_true'] at hb
    obtain ⟨⟨⟨⟨hIdx, hArr⟩, hTimNotIdx⟩, hNE⟩, hText⟩ := hb
    have hTextAll : ∀ l ∈ b.text,
        isIndexLine l = false ∧ containsArrow l = false ∧ isBlankLine l = false := by
      intro l hl
      have := List.all_eq_true.mp hText l hl
      simp only [Bool.and_eq_true, Bool.not_eq_true'] at this
      exact ⟨this.1.1, this.1.2, this.2⟩
    have hrec := ih (fun x hx => h x (by simp [hx]))
    have hrender : renderSrt (b :: bs) =
        b.index :: b.timing :: (b.text ++ ("" :: renderSrt bs)) := by
      simp [renderSrt, renderBlock]
    rw [hrender]
    simp only [translateSrtGo, hIdx, if_true, hTimNotIdx, Bool.false_eq_true,
      if_false, hArr]
    rw [translateSrtGo_text tr b.text hTextAll [] ("" :: renderSrt bs)]
    have hne2 : (b.text.map pyStrip).isEmpty = false := by
      cases ht : b.text with
      | nil => rw [ht] at hNE; simp at hNE
      | cons x xs => simp [ht]
    simp only [translateSrtGo, List.nil_append]
    rw [show isIndexLine "" = false from rfl, show containsArrow "" = false from rfl,
      show isBlankLine "" = true from rfl]
    simp only [Bool.false_eq_true, if_false, if_true, hne2]
    rw [hrec]
    have horig : pyStrip (joinSp (b.text.map pyStrip)) = blockOriginal b := rfl
    cases htr : tr (blockOriginal b) with
    | some t =>
      simp only [flushBlock, horig, htr]
      simp [Prod.mk.injEq, renderSrt, renderBlock, translateBlock, htr]
    | none =>
      simp only [flushBlock, horig, htr]
      simp [Prod.mk.injEq, renderSrt, renderBlock, translateBlock, htr]

/-! ## URL cleaner lemmas (claim C10) -/

theorem takeWhile_all {α} (p : α → Bool) (l : List α) :
    ∀ c ∈ l.takeWhile p, p c = true := by
  induction l with
  | nil => simp
  | cons x xs ih =>
    intro c hc
    rw [List.takeWhile_cons] at hc
    by_cases hx : p x = true
    · rw [if_pos hx] at hc
      rcases List.mem_cons.mp hc with rfl | h2
      · exact hx
      · exact ih c h2
    · rw [if_neg hx] at hc
      simp at hc

theorem takeWhile_id_of_all {α} (p : α → Bool) (l : List α)
    (h : ∀ c ∈ l, p c = true) : l.takeWhile p = l := by
  induction l with
  | nil => rfl
  | cons x xs ih =>
    rw [List.takeWhile_cons, if_pos (h x (by simp))]
    rw [ih (fun c hc => h c (by simp [hc]))]

theorem dropWhile_nil_of_all {α} (p : α → Bool) (l : List α)
    (h : ∀ c ∈ l, p c = true) : l.dropWhile p = [] := by
  induction l with
  | nil => rfl
  | cons x xs ih =>
    rw [List.dropWhile_cons, if_pos (h x (by simp))]
    exact ih (fun c hc => h c (by simp [hc]))

theorem litM_self (l r : List Char) : litM l (l ++ r) = some r := by
  induction l with
  | nil => rfl
  | cons c cs ih => simpa [litM] using ih

theorem litM_sound {l s r : List Char} (h : litM l s = some r) : s = l ++ r := by
  induction l generalizing s with
  | nil =>
    cases h
    rfl
  | cons c cs ih =>
    cases s with
    | nil => cases h
    | cons d ds =>
      unfold litM at h
      by_cases hcd : c = d
      · rw [if_pos hcd] at h
        subst hcd
        rw [ih h]
        rfl
      · rw [if_neg hcd] at h
        cases h

theorem idsM_sound {s ids r : List Char} (h : idsM s = some (ids, r)) :
    s = ids ++ r ∧ ids ≠ [] ∧ ∀ c ∈ ids, isIdChar c = true := by
  unfold idsM at h
  split at h
  · cases h
  · next tw htw =>
    injection h with h1
    injection h1 with h2 h3
    subst h2
    subst h3
    exact ⟨(List.takeWhile_append_dropWhile isIdChar s).symm, fun hx => htw hx,
      takeWhile_all isIdChar s⟩

theorem idsM_self {ids : List Char} (hne : ids ≠ [])
    (hall : ∀ c ∈ ids, isIdChar c = true) : idsM ids = some (ids, []) := by
  cases ids with
  | nil => exact absurd rfl hne
  | cons x xs =>
    unfold idsM
    rw [takeWhile_id_of_all _ _ hall, dropWhile_nil_of_all _ _ hall]

theorem schemeM_http (r : List Char) :
    schemeM ("http://".data ++ r) = some ("http://".data, r) := rfl

theorem schemeM_https (r : List Char) :
    schemeM ("https://".data ++ r) = some ("https://".data, r) := rfl

theorem schemeM_sound {s g r : List Char} (h : schemeM s = some (g, r)) :
    (g = "http://".data ∨ g = "https://".data) ∧ s = g ++ r := by
  unfold schemeM at h
  split at h
  · cases h
  · rename_i r0 heq
    have hs0 := litM_sound heq
    split at h
    · cases h
    · rename_i c r2
      by_cases hc : c = 's'
      · rw [if_pos hc] at h
        subst hc
        split at h
        · cases h
        · rename_i rest heq2
          injection h with h3
          injection h3 with h4 h5
          subst h4
          subst h5
          refine ⟨Or.inr rfl, ?_⟩
          rw [hs0, litM_sound heq2]
          rfl
      · rw [if_neg hc] at h
        split at h
        · cases h
        · rename_i rest heq2
          injection h with h3
          injection h3 with h4 h5
          subst h4
          subst h5
          refine ⟨Or.inl rfl, ?_⟩
          rw [hs0, litM_sound heq2]
          rfl

theorem watchTail_self {ids : List Char} (hne : ids ≠ [])
    (hall : ∀ c ∈ ids, isIdChar c = true) :
    watchTailM ("youtube.com/watch?v=".data ++ ids) =
      some ("youtube.com/watch?v=".data ++ ids) := by
  unfold watchTailM
  rw [litM_self]
  show (match idsM ids with
    | none => none
    | some (ids2, _) => some ("youtube.com/watch?v=".data ++ ids2)) =
    some ("youtube.com/watch?v=".data ++ ids)
  rw [idsM_self hne hall]

theorem watchTail_sound {s g : List Char} (h : watchTailM s = some g) :
    ∃ ids r, g = "youtube.com/watch?v=".data ++ ids ∧ s = g ++ r ∧
      ids ≠ [] ∧ ∀ c ∈ ids, isIdChar c = true := by
  unfold watchTailM at h
  split at h
  · cases h
  · rename_i r0 heq
    split at h
    · cases h
    · rename_i p ids rrest heq2
      injection h with h3
      subst h3
      obtain ⟨hsplit, hne, hall⟩ := idsM_sound heq2
      refine ⟨ids, rrest, rfl, ?_, hne, hall⟩
      rw [litM_sound heq, hsplit, List.append_assoc]

theorem altM_sound {pre : String} {s g : List Char} (h : altM pre s = some g) :
    ∃ t r, watchTailM t = some t ∧ g = pre.data ++ t ∧ s = g ++ r := by
  unfold altM at h
  split at h
  · cases h
  · rename_i r0 heq
    cases h2 : watchTailM r0 with
    | none => rw [h2] at h; cases h
    | some t =>
      rw [h2] at h
      simp only [Option.map_some'] at h
      injection h with h3
      subst h3
      obtain ⟨ids, r, hg, hsplit, hne, hall⟩ := watchTail_sound h2
      refine ⟨t, r, ?_, rfl, ?_⟩
      · rw [hg]
        exact watchTail_self hne hall
      · rw [litM_sound heq, hsplit, List.append_assoc]

theorem altM_self (pre : String) (t : List Char) (hwt : watchTailM t = some t) :
    altM pre (pre.data ++ t) = some (pre.data ++ t) := by
  unfold altM
  rw [litM_self]
  show (watchTailM t).map (fun x => pre.data ++ x) = some (pre.data ++ t)
  rw [hwt]
  rfl

theorem domTail_self_of_watch {t : List Char} (hwt : watchTailM t = some t) :
    (domTailM ("www.".data ++ t) = some ("www.".data ++ t)) ∧
    (domTailM ("m.".data ++ t) = some ("m.".data ++ t)) ∧
    (domTailM ("music.".data ++ t) = some ("music.".data ++ t)) := by
  refine ⟨?_, ?_, ?_⟩
  · unfold domTailM
    rw [altM_self "www." t hwt]
  · unfold domTailM
    rw [show altM "www." ("m.".data ++ t) = none from rfl]
    show (match altM "m." ("m.".data ++ t) with
      | some g => some g
      | none =>
        match altM "music." ("m.".data ++ t) with
        | some g => some g
        | none => watchTailM ("m.".data ++ t)) = some ("m.".data ++ t)
    rw [altM_self "m." t hwt]
  · unfold domTailM
    rw [show altM "www." ("music.".data ++ t) = none from rfl]
    show (match altM "m." ("music.".data ++ t) with
      | some g => some g
      | none =>
        match altM "music." ("music.".data ++ t) with
        | some g => some g
        | none => watchTailM ("music.".data ++ t)) = some ("music.".data ++ t)
    rw [show altM "m." ("music.".data ++ t) = none from rfl]
    show (match altM "music." ("music.".data ++ t) with
      | some g => some g
      | none => watchTailM ("music.".data ++ t)) = some ("music.".data ++ t)
    rw [altM_self "music." t hwt]

theorem domTail_self_empty {ids : List Char} (hne : ids ≠ [])
    (hall : ∀ c ∈ ids, isIdChar c = true) :
    domTailM ("youtube.com/watch?v=".data ++ ids) =
      some ("youtube.com/watch?v=".data ++ ids) := by
  unfold domTailM
  rw [show altM "www." ("youtube.com/watch?v=".data ++ ids) = none from rfl]
  show (match altM "m." ("youtube.com/watch?v=".data ++ ids) with
    | some g => some g
    | none =>
      match altM "music." ("youtube.com/watch?v=".data ++ ids) with
      | some g => some g
      | none => watchTailM ("youtube.com/watch?v=".data ++ ids)) =
    some ("youtube.com/watch?v=".data ++ ids)
  rw [show altM "m." ("youtube.com/watch?v=".data ++ ids) = none from rfl]
  show (match altM "music." ("youtube.com/watch?v=".data ++ ids) with
    | some g => some g
    | none => watchTailM ("youtube.com/watch?v=".data ++ ids)) =
    some ("youtube.com/watch?v=".data ++ ids)
  rw [show altM "music." ("youtube.com/watch?v=".data ++ ids) = none from rfl]
  show watchTailM ("youtube.com/watch?v=".data ++ ids) =
    some ("youtube.com/watch?v=".data ++ ids)
  exact watchTail_self hne hall

theorem domTail_sound {s g : List Char} (h : domTailM s = some g) :
    domTailM g = some g ∧ ∃ r, s = g ++ r := by
  unfold domTailM at h
  split at h
  · rename_i g1 heq
    injection h with h3
    subst h3
    obtain ⟨t, r, hwt, hg, hs⟩ := altM_sound heq
    subst hg
    exact ⟨(domTail_self_of_watch hwt).1, r, hs⟩
  · rename_i heq1
    split at h
    · rename_i g1 heq
      injection h with h3
      subst h3
      obtain ⟨t, r, hwt, hg, hs⟩ := altM_sound heq
      subst hg
      exact ⟨(domTail_self_of_watch hwt).2.1, r, hs⟩
    · rename_i heq2
      split at h
      · rename_i g1 heq
        injection h with h3
        subst h3
        obtain ⟨t, r, hwt, hg, hs⟩ := altM_sound heq
        subst hg
        exact ⟨(domTail_self_of_watch hwt).2.2, r, hs⟩
      · rename_i heq3
        obtain ⟨ids, r, hg, hs, hne, hall⟩ := watchTail_sound h
        subst hg
        exact ⟨domTail_self_empty hne hall, r, hs⟩

theorem pat1_round {s g : List Char} (h : pat1M s = some g) :
    pat1M g = some g ∧ ∃ r, s = g ++ r := by
  unfold pat1M at h
  split at h
  · cases h
  · rename_i p sch rest heq
    cases h2 : domTailM rest with
    | none => rw [h2] at h; cases h
    | some t =>
      rw [h2] at h
      simp only [Option.map_some'] at h
      injection h with h3
      subst h3
      obtain ⟨hsch, hs⟩ := schemeM_sound heq
      obtain ⟨ht, r, hrest⟩ := domTail_sound h2
      refine ⟨?_, r, ?_⟩
      · rcases hsch with rfl | rfl
        · unfold pat1M
          rw [schemeM_http]
          show (domTailM t).map (fun x => "http://".data ++ x) =
            some ("http://".data ++ t)
          rw [ht]
          rfl
        · unfold pat1M
          rw [schemeM_https]
          show (domTailM t).map (fun x => "https://".data ++ x) =
            some ("https://".data ++ t)
          rw [ht]
          rfl
      · rw [hs, hrest, List.append_assoc]

theorem pat1M_none_yb {sch : List Char}
    (hsch : sch = "http://".data ∨ sch = "https://".data) (ids : List Char) :
    pat1M (sch ++ ("youtu.be/".data ++ ids)) = none := by
  rcases hsch with rfl | rfl
  · unfold pat1M
    rw [schemeM_http]
    show (domTailM ("youtu.be/".data ++ ids)).map (fun x => "http://".data ++ x) = none
    rw [show domTailM ("youtu.be/".data ++ ids) = none from rfl]
    rfl
  · unfold pat1M
    rw [schemeM_https]
    show (domTailM ("youtu.be/".data ++ ids)).map (fun x => "https://".data ++ x) = none
    rw [show domTailM ("youtu.be/".data ++ ids) = none from rfl]
    rfl

theorem pat2M_self {sch : List Char}
    (hsch : sch = "http://".data ∨ sch = "https://".data) {ids : List Char}
    (hne : ids ≠ []) (hall : ∀ c ∈ ids, isIdChar c = true) :
    pat2M (sch ++ ("youtu.be/".data ++ ids)) =
      some (sch ++ ("youtu.be/".data ++ ids)) := by
  rcases hsch with rfl | rfl
  · unfold pat2M
    rw [schemeM_http]
    show (match litM "youtu.be/".data ("youtu.be/".data ++ ids) with
      | none => none
      | some r =>
        match idsM r with
        | none => none
        | some (ids2, _) => some ("http://".data ++ "youtu.be/".data ++ ids2)) =
      some ("http://".data ++ ("youtu.be/".data ++ ids))
    rw [litM_self]
    show (match idsM ids with
      | none => none
      | some (ids2, _) => some ("http://".data ++ "youtu.be/".data ++ ids2)) =
      some ("http://".data ++ ("youtu.be/".data ++ ids))
    rw [idsM_self hne hall]
    show some ("http://".data ++ "youtu.be/".data ++ ids) =
      some ("http://".data ++ ("youtu.be/".data ++ ids))
    rw [List.append_assoc]
  · unfold pat2M
    rw [schemeM_https]
    show (match litM "youtu.be/".data ("youtu.be/".data ++ ids) with
      | none => none
      | some r =>
        match idsM r with
        | none => none
        | some (ids2, _) => some ("https://".data ++ "youtu.be/".data ++ ids2)) =
      some ("https://".data ++ ("youtu.be/".data ++ ids))
    rw [litM_self]
    show (match idsM ids with
      | none => none
      | some (ids2, _) => some ("https://".data ++ "youtu.be/".data ++ ids2)) =
      some ("https://".data ++ ("youtu.be/".data ++ ids))
    rw [idsM_self hne hall]
    show some ("https://".data ++ "youtu.be/".data ++ ids) =
      some ("https://".data ++ ("youtu.be/".data ++ ids))
    rw [List.append_assoc]

theorem pat2_round {s g : List Char} (h : pat2M s = some g) :
    pat1M g = none ∧ pat2M g = some g ∧ ∃ r, s = g ++ r := by
  unfold pat2M at h
  split at h
  · cases h
  · rename_i p sch rest heq
    split at h
    · cases h
    · rename_i r1 heq2
      split at h
      · cases h
      · rename_i p2 ids rr heq3
        injection h with h3
        subst h3
        obtain ⟨hsch, hs⟩ := schemeM_sound heq
        obtain ⟨hsplit, hne, hall⟩ := idsM_sound heq3
        have hgform : sch ++ "youtu.be/".data ++ ids =
            sch ++ ("youtu.be/".data ++ ids) := List.append_assoc sch _ ids
        refine ⟨?_, ?_, rr, ?_⟩
        · rw [hgform]
          exact pat1M_none_yb hsch ids
        · rw [hgform]
          exact pat2M_self hsch hne hall
        · rw [hs, litM_sound heq2, hsplit]
          simp [List.append_assoc]

theorem clean_eq_of_pat1 {u : String} {g : List Char}
    (h : pat1M u.data = some g) : clean_youtube_url u = ⟨g⟩ := by
  unfold clean_youtube_url
  rw [h]

theorem clean_eq_of_pat2 {u : String} {g : List Char} (h1 : pat1M u.data = none)
    (h2 : pat2M u.data = some g) : clean_youtube_url u = ⟨g⟩ := by
  unfold clean_youtube_url
  rw [h1]
  show (match pat2M u.data with
    | some g => (⟨g⟩ : String)
    | none => u) = ⟨g⟩
  rw [h2]

theorem clean_eq_of_none {u : String} (h1 : pat1M u.data = none)
    (h2 : pat2M u.data = none) : clean_youtube_url u = u := by
  unfold clean_youtube_url
  rw [h1]
  show (match pat2M u.data with
    | some g => (⟨g⟩ : String)
    | none => u) = u
  rw [h2]

/-! ## Claim theorems -/

/-- Helper: `translateBlock` never touches the index line. -/
theorem translateBlock_index (tr : String → Option String) (b : CaptionBlock) :
    (translateBlock tr b).index = b.index := by
  unfold translateBlock
  cases tr (blockOriginal b) <;> rfl

/-- Helper: `translateBlock` never touches the timing line. -/
theorem translateBlock_timing (tr : String → Option String) (b : CaptionBlock) :
    (translateBlock tr b).timing = b.timing := by
  unfold translateBlock
  cases tr (blockOriginal b) <;> rfl

/-- Claim C2, counterexample: on a caption file whose text line carries
surrounding whitespace, a failing translation does not retain the text
line verbatim — `translate_srt_file` buffers `line.strip()`, so the
fallback emits the stripped line `"hello"` in place of `" hello "`. -/
theorem c2_counterexample :
    translate_srt_file (fun _ => none)
        ["1", "00:00:00,000 --> 00:00:01,000", " hello ", ""]
      = ["1", "00:00:00,000 --> 00:00:01,000", "hello", ""]
    ∧ (" hello " : String) ≠ "hello" := by
  constructor
  · decide
  · decide

/-- Claim C2, amended: for every caption file of N well-formed blocks,
`translate_srt_file` produces exactly N blocks in the same order with the
index and timing lines passed through unchanged; a block whose translation
fails keeps its own text lines with each line's surrounding whitespace
stripped (verbatim when a line carries none), other blocks carry the
translated text, and the whole operation is total regardless of how many
per-block translations fail. -/
theorem c2_translate_blocks (tr : String → Option String) (bs : List CaptionBlock)
    (h : ∀ b ∈ bs, wfBlock b = true) :
    translate_srt_file tr (renderSrt bs) = renderSrt (bs.map (translateBlock tr)) := by
  unfold translate_srt_file
  rw [translateSrtGo_render tr bs h]

/-- Witness for `c2_translate_blocks` at a concrete two-block file with an
always-failing translator. -/
theorem c2_translate_blocks_witness :
    translate_srt_file (fun _ => none)
        (renderSrt [⟨"1", "00:00:00,000 --> 00:00:01,000", ["hi there"]⟩,
          ⟨"2", "00:00:01,000 --> 00:00:02,000", ["more", "text"]⟩])
      = renderSrt ([⟨"1", "00:00:00,000 --> 00:00:01,000", ["hi there"]⟩,
          ⟨"2", "00:00:01,000 --> 00:00:02,000", ["more", "text"]⟩].map
            (translateBlock (fun _ => none))) :=
  c2_translate_blocks (fun _ => none) _ (by decide)

/-- Claim C6: throughout subtitle translation the translator receives
exactly the per-block joined text (one call per block, in order) — index
and timing lines are never among the strings passed to it — and both
kinds of line reappear unchanged at their position in the corresponding
output block. -/
theorem c6_translator_isolation (tr : String → Option String) (bs : List CaptionBlock)
    (h : ∀ b ∈ bs, wfBlock b = true) :
    translate_srt_calls tr (renderSrt bs) = bs.map blockOriginal
    ∧ (bs.map (translateBlock tr)).map CaptionBlock.index = bs.map CaptionBlock.index
    ∧ (bs.map (translateBlock tr)).map CaptionBlock.timing = bs.map CaptionBlock.timing
    ∧ translate_srt_file tr (renderSrt bs) = renderSrt (bs.map (translateBlock tr)) := by
  refine ⟨?_, ?_, ?_, ?_⟩
  · unfold translate_srt_calls
    rw [translateSrtGo_render tr bs h]
  · simp [List.map_map, Function.comp_def, translateBlock_index]
  · simp [List.map_map, Function.comp_def, translateBlock_timing]
  · unfold translate_srt_file
    rw [translateSrtGo_render tr bs h]

/-- Witness for `c6_translator_isolation` at a concrete file: the only
string handed to the translator is the joined block text. -/
theorem c6_translator_isolation_witness :
    translate_srt_calls (fun s => some s)
        (renderSrt [⟨"1", "00:00:00,000 --> 00:00:01,000", ["first", "line"]⟩])
      = [⟨"1", "00:00:00,000 --> 00:00:01,000", ["first", "line"]⟩].map blockOriginal :=
  (c6_translator_isolation (fun s => some s) _ (by decide)).1

/-- Claim C5: the subprocess executor raises the failure carrying the
process exit code exactly when the exit code is non-zero and the
cancellation flag is unset at the final check, and a cancellation observed
between output lines terminates the process, stops reading (the logs end
at the line where the flag was seen), and returns without raising. -/
theorem c5_run_subprocess (cancel : Nat → Bool) (cmd lines : List String) (code : Int)
    (mono : ∀ i j, i ≤ j → cancel i = true → cancel j = true) :
    (∀ c : Int, (run_subprocess cancel cmd lines code).status = .failed c ↔
      (c = code ∧ code ≠ 0 ∧ cancel lines.length = false))
    ∧ ((∃ i, i < lines.length ∧ cancel i = true) →
        (run_subprocess cancel cmd lines code).status = .cancelled
        ∧ (run_subprocess cancel cmd lines code).terminated = true
        ∧ ∃ k, k < lines.length ∧
            (run_subprocess cancel cmd lines code).logs =
              ("[CMD] " ++ joinSp cmd) :: ((lines.take k).map pyStrip
                ++ ["[INFO] Process terminated by user."])) := by
  constructor
  · intro c
    have h := run_go_failed_iff cancel code lines mono c
    simpa using h
  · intro hex
    have h := run_go_cancelled cancel code lines hex
    refine ⟨by simpa using h.1, by simpa using h.2.1, ?_⟩
    obtain ⟨k, hk, hl⟩ := h.2.2
    exact ⟨k, hk, by simp [hl]⟩

/-- Witness for `c5_run_subprocess`: a flag that trips before the second
line yields a cancelled, terminated run. -/
theorem c5_run_subprocess_witness :
    (run_subprocess (fun i => decide (1 ≤ i)) ["whisper", "x"] ["a", "b"] 0).status
      = .cancelled := by
  have h := (c5_run_subprocess (fun i => decide (1 ≤ i)) ["whisper", "x"] ["a", "b"] 0
    (by
      intro i j hij hi
      simp only [decide_eq_true_eq] at *
      omega)).2 ⟨1, by decide, by decide⟩
  exact h.1

/-- Claim C10: `clean_youtube_url` returns a prefix of its input (the
matched canonical watch-URL or youtu.be form, trailing query text
discarded), returns the input unchanged when neither anchored pattern
matches, and is idempotent. -/
theorem c10_clean_youtube_url (u : String) :
    (∃ rest : List Char, u.data = (clean_youtube_url u).data ++ rest)
    ∧ clean_youtube_url (clean_youtube_url u) = clean_youtube_url u
    ∧ (pat1M u.data = none → pat2M u.data = none → clean_youtube_url u = u) := by
  cases h1 : pat1M u.data with
  | some g =>
    obtain ⟨hround, r, hr⟩ := pat1_round h1
    have hc : clean_youtube_url u = ⟨g⟩ := clean_eq_of_pat1 h1
    rw [hc]
    refine ⟨⟨r, hr⟩, clean_eq_of_pat1 hround, ?_⟩
    intro hn _
    exact Option.noConfusion hn
  | none =>
    cases h2 : pat2M u.data with
    | some g =>
      obtain ⟨hn1, hround, r, hr⟩ := pat2_round h2
      have hc : clean_youtube_url u = ⟨g⟩ := clean_eq_of_pat2 h1 h2
      rw [hc]
      refine ⟨⟨r, hr⟩, clean_eq_of_pat2 hn1 hround, ?_⟩
      intro _ hn
      exact Option.noConfusion hn
    | none =>
      have hc : clean_youtube_url u = u := clean_eq_of_none h1 h2
      rw [hc]
      exact ⟨⟨[], (List.append_nil _).symm⟩, by rw [hc], fun _ _ => rfl⟩

/-- Witness for `c10_clean_youtube_url`: a non-URL input is returned
unchanged, and cleaning a cleaned watch URL changes nothing. -/
theorem c10_clean_youtube_url_witness :
    clean_youtube_url "hello world" = "hello world"
    ∧ clean_youtube_url (clean_youtube_url "https://www.youtube.com/watch?v=abc123&t=10s")
        = clean_youtube_url "https://www.youtube.com/watch?v=abc123&t=10s" :=
  ⟨(c10_clean_youtube_url "hello world").2.2 (by decide) (by decide),
   (c10_clean_youtube_url "https://www.youtube.com/watch?v=abc123&t=10s").2.1⟩

/-- Helper: Python truncation agrees with floor on non-negative values. -/
theorem pyTrunc_nonneg {q : Rat} (h : 0 ≤ q) : pyTrunc q = ⌊q⌋ := by
  unfold pyTrunc
  exact if_pos h

/-- Helper: a successful timestamp match begins with `time=`, so the
containment pre-test succeeds. -/
theorem matchTimeAt_timeEq {l : List Char} {v : Nat × Nat × Nat × Nat}
    (h : matchTimeAt l = some v) : timeEqScan l = true := by
  unfold matchTimeAt at h
  split at h
  · rfl
  · cases h

/-- Helper: if the timestamp regex matches anywhere, the line contains
`time=`. -/
theorem findTime_timeEq {l : List Char} {v : Nat × Nat × Nat × Nat}
    (h : findTime l = some v) : timeEqScan l = true := by
  induction l with
  | nil => cases h
  | cons c rest ih =>
    unfold findTime at h
    split at h
    · rename_i r heq
      exact matchTimeAt_timeEq heq
    · have hr := ih h
      unfold timeEqScan
      split
      · rfl
      all_goals simp_all

/-- Claim C4, counterexample: the encode interpreter does NOT clamp the
percent to 0-100 — a timestamp beyond the probed total duration is
emitted as is (here 200). -/
theorem c4_counterexample :
    encode_progress 180 "time=00:06:00.00" = some (200, "200% encoded")
    ∧ ¬((200 : Int) ≤ 100) := by
  constructor
  · rw [show encode_progress 180 "time=00:06:00.00"
        = some (pyTrunc ((((0 : Nat) : Rat) * 3600 + ((6 : Nat) : Rat) * 60
            + ((0 : Nat) : Rat) + ((0 : Nat) : Rat) / 100) / 180 * 100),
          toString (pyTrunc ((((0 : Nat) : Rat) * 3600 + ((6 : Nat) : Rat) * 60
            + ((0 : Nat) : Rat) + ((0 : Nat) : Rat) / 100) / 180 * 100)) ++ "% encoded")
        from rfl]
    rw [show pyTrunc ((((0 : Nat) : Rat) * 3600 + ((6 : Nat) : Rat) * 60
        + ((0 : Nat) : Rat) + ((0 : Nat) : Rat) / 100) / 180 * 100) = 200 from by
      rw [pyTrunc, if_pos (by positivity)]
      rw [show (((0 : Nat) : Rat) * 3600 + ((6 : Nat) : Rat) * 60 + ((0 : Nat) : Rat)
          + ((0 : Nat) : Rat) / 100) / 180 * 100 = 200 from by norm_num]
      norm_num]
    rfl
  · decide

/-- Claim C4, amended: for a line with no `time=` token or a non-positive
total duration no update is emitted; when the strict `HH:MM:SS.hh` pattern
matches and the total is positive, the emitted percent is exactly
`floor(100 * elapsed / total)` — truncation with NO clamp into 0-100
(values above 100 pass through, see the counterexample). -/
theorem c4_encode_progress (total : Rat) (line : String) :
    (timeEqScan line.data = false → encode_progress total line = none)
    ∧ (total ≤ 0 → encode_progress total line = none)
    ∧ (∀ h m s hs : Nat, findTime line.data = some (h, m, s, hs) → 0 < total →
        encode_progress total line =
          some (⌊((h : Rat) * 3600 + (m : Rat) * 60 + (s : Rat) + (hs : Rat) / 100)
              / total * 100⌋,
            toString (⌊((h : Rat) * 3600 + (m : Rat) * 60 + (s : Rat)
              + (hs : Rat) / 100) / total * 100⌋) ++ "% encoded")) := by
  refine ⟨?_, ?_, ?_⟩
  · intro h
    unfold encode_progress
    rw [h]
    rfl
  · intro hle
    unfold encode_progress
    by_cases ht : timeEqScan line.data = true
    · rw [ht]
      simp only [if_true]
      cases hf : findTime line.data with
      | none => rfl
      | some v =>
        obtain ⟨h, m, s, hs⟩ := v
        show (if 0 < total then
            some (pyTrunc (((h : Rat) * 3600 + (m : Rat) * 60 + (s : Rat)
                + (hs : Rat) / 100) / total * 100),
              toString (pyTrunc (((h : Rat) * 3600 + (m : Rat) * 60 + (s : Rat)
                + (hs : Rat) / 100) / total * 100)) ++ "% encoded")
          else none) = none
        rw [if_neg (not_lt.mpr hle)]
    · simp only [Bool.not_eq_true] at ht
      rw [ht]
      rfl
  · intro h m s hs hf hpos
    have ht := findTime_timeEq hf
    unfold encode_progress
    rw [ht]
    simp only [if_true]
    rw [hf]
    show (if 0 < total then
        some (pyTrunc (((h : Rat) * 3600 + (m : Rat) * 60 + (s : Rat)
            + (hs : Rat) / 100) / total * 100),
          toString (pyTrunc (((h : Rat) * 3600 + (m : Rat) * 60 + (s : Rat)
            + (hs : Rat) / 100) / total * 100)) ++ "% encoded")
      else none) = _
    rw [if_pos hpos]
    have hq : (0 : Rat) ≤ ((h : Rat) * 3600 + (m : Rat) * 60 + (s : Rat)
        + (hs : Rat) / 100) / total * 100 := by
      apply mul_nonneg
      · apply div_nonneg
        · positivity
        · exact le_of_lt hpos
      · norm_num
    rw [pyTrunc_nonneg hq]

/-- Witness for `c4_encode_progress`: `time=00:01:30.50` against a total
duration of 180 seconds yields 50 percent. -/
theorem c4_encode_progress_witness :
    encode_progress 180 "time=00:01:30.50" = some (50, "50% encoded") := by
  have h := (c4_encode_progress 180 "time=00:01:30.50").2.2 0 1 30 50
    (by decide) (by norm_num)
  rw [h]
  rw [show (⌊(((0 : Nat) : Rat) * 3600 + ((1 : Nat) : Rat) * 60 + ((30 : Nat) : Rat)
      + ((50 : Nat) : Rat) / 100) / 180 * 100⌋ : Int) = 50 from by
    rw [show (((0 : Nat) : Rat) * 3600 + ((1 : Nat) : Rat) * 60 + ((30 : Nat) : Rat)
        + ((50 : Nat) : Rat) / 100) / 180 * 100 = 905 / 18 from by norm_num]
    norm_num [Int.floor_eq_iff]]
  rfl

/-- Claim C3 (code bug): on a downloading payload whose percent text does
not parse as a float, the `except ValueError` handler of `progress_hook`
(line 398) calls the bound pyqtSignal object `self.log_message(...)`
instead of `self.log_message.emit(...)`; calling a native Qt signal raises
`TypeError`, so the interpreter raises on malformed input instead of
silently skipping the update the handler's own warning text promises.
The encode-interpreter half of the claim does hold: malformed or absent
timestamps yield no update and no exception. -/
theorem c3_progress_hook_bug :
    progress_hook false ⟨"downloading", some "N/A%", some "1.0MiB/s"⟩
      = .error pyqtSignalCallError
    ∧ encode_progress 180 "time=xx:yy" = none
    ∧ encode_progress 180 "no timestamp" = none := by
  refine ⟨rfl, by decide, by decide⟩

/-- Claim C7, counterexample: the downloading branch truncates the parsed
percent but does NOT clamp it into 0-100 — percent text `150.5%` is
emitted as 150. -/
theorem c7_counterexample :
    progress_hook false ⟨"downloading", some "150.5%", some "10MiB/s"⟩
      = .ok (some (150, "10MiB/s"))
    ∧ ¬((150 : Int) ≤ 100) := by
  constructor
  · rw [show progress_hook false ⟨"downloading", some "150.5%", some "10MiB/s"⟩
        = .ok (some (pyTrunc (((150 : Nat) : Rat) + (((5 : Nat) : Rat) + 0) / 10),
          "10MiB/s")) from rfl]
    rw [show pyTrunc (((150 : Nat) : Rat) + (((5 : Nat) : Rat) + 0) / 10) = 150 from by
      rw [pyTrunc, if_pos (by norm_num)]
      norm_num [Int.floor_eq_iff]]
  · decide

/-- Claim C7, amended: on a `downloading` payload the hook strips escape
sequences from the percent and speed text, parses the percent as a float
and truncates it toward zero — with NO clamping into 0-100 (see the
counterexample) — pairing it with the cleaned speed text; on `finished`
the emitted update is always `(100, "Finalizing...")`. -/
theorem c7_download_hook (d : HookPayload) :
    (∀ q : Rat, d.status = "downloading" →
      parsePyFloat? (cleanPercent (d.percentStr.getD "0.0%")) = some q →
      progress_hook false d
        = .ok (some (pyTrunc q, cleanSpeed (d.speedStr.getD "N/A"))))
    ∧ (d.status = "finished" →
        progress_hook false d = .ok (some (100, "Finalizing..."))) := by
  constructor
  · intro q hst hp
    unfold progress_hook
    rw [if_neg (by decide), if_pos hst]
    show (match parsePyFloat? (cleanPercent (d.percentStr.getD "0.0%")) with
      | some q => Except.ok (some (pyTrunc q, cleanSpeed (d.speedStr.getD "N/A")))
      | none => Except.error pyqtSignalCallError) = _
    rw [hp]
  · intro hst
    unfold progress_hook
    rw [if_neg (by decide), if_neg (by rw [hst]; decide), if_pos hst]

/-- Witness for `c7_download_hook`: the spec's own instance — percent text
`45.3%` followed by an ANSI escape yields 45 with escape-stripped speed
text, and a finished payload yields 100. -/
theorem c7_download_hook_witness :
    progress_hook false ⟨"downloading", some "45.3%\x1B[0m", some "1.2MiB/s"⟩
      = .ok (some (45, "1.2MiB/s"))
    ∧ progress_hook false ⟨"finished", none, none⟩ = .ok (some (100, "Finalizing...")) := by
  constructor
  · have h := (c7_download_hook ⟨"downloading", some "45.3%\x1B[0m", some "1.2MiB/s"⟩).1
      (((45 : Nat) : Rat) + (((3 : Nat) : Rat) + 0) / 10) rfl rfl
    rw [h]
    rw [show pyTrunc (((45 : Nat) : Rat) + (((3 : Nat) : Rat) + 0) / 10) = 45 from by
      rw [pyTrunc, if_pos (by norm_num)]
      norm_num [Int.floor_eq_iff]]
    rfl
  · exact (c7_download_hook ⟨"finished", none, none⟩).2 rfl

/-- Helper: the title sanitisation is idempotent. -/
theorem sanitize_title_idem (t : String) :
    sanitize_title (sanitize_title t) = sanitize_title t := by
  unfold sanitize_title
  apply congrArg String.mk
  show (t.data.filter (fun c => !isHostile c)).filter (fun c => !isHostile c)
    = t.data.filter (fun c => !isHostile c)
  rw [List.filter_filter]
  simp

/-- Claim C8, counterexample: the Audio branch (line 262) derives the
reported final path from the raw, unsanitised title, so path-hostile
characters such as `:` and `?` survive into the file name. -/
theorem c8_counterexample :
    audio_final_path "/out" "a:b?" = "/out/a:b?.mp3"
    ∧ sanitize_title "a:b?" = "ab"
    ∧ audio_final_path "/out" "a:b?" ≠ audio_final_path "/out" (sanitize_title "a:b?") := by
  refine ⟨by decide, by decide, by decide⟩

/-- Claim C8, amended: the Video branch derives all four output file
paths from the sanitised title — they are invariant under pre-sanitising
and the sanitised title contains no path-hostile character — while the
Audio branch's reported path uses the raw title (see the
counterexample). -/
theorem c8_video_paths_sanitized (dir t : String) :
    video_output_paths dir t = video_output_paths dir (sanitize_title t)
    ∧ ((sanitize_title t).data.all (fun c => !isHostile c)) = true := by
  constructor
  · unfold video_output_paths
    rw [sanitize_title_idem]
  · unfold sanitize_title
    show (t.data.filter (fun c => !isHostile c)).all (fun c => !isHostile c) = true
    rw [List.all_eq_true]
    intro c hc
    exact (List.mem_filter.mp hc).2

/-- Claim C9: when the bit-rate probe yields nothing, the encoder command
is the constant-quality-factor (`-crf 23`) variant — different from every
bit-rate-matched command — the warning log line is the probe log emitted
before the `[CMD]` line that precedes the subprocess launch, and the
run's terminal outcome never depends on the probe result, so the stage
cannot abort merely because the bit rate is unavailable. -/
theorem c9_bitrate_fallback (sp fp : Option String) (vp fs op : String)
    (h : get_video_bitrate sp fp = none) :
    synthesize_cmd vp fs (get_video_bitrate sp fp) op
      = ["ffmpeg", "-i", vp, "-vf", fs, "-c:v", "libx264", "-preset", "medium",
         "-crf", "23", "-c:a", "copy", "-y", op]
    ∧ (∀ b : String, synthesize_cmd vp fs (get_video_bitrate sp fp) op
        ≠ synthesize_cmd vp fs (some b) op)
    ∧ synthesize_prelog (get_video_bitrate sp fp)
        = ["[WARN] Could not detect bitrate. Using CRF=23 for encoding."]
    ∧ (∀ (e : VideoEnv) (b : Option String),
        results (run_video (setBitrate e b)) = results (run_video e)) := by
  refine ⟨?_, ?_, ?_, ?_⟩
  · rw [h]
    rfl
  · intro b hcontra
    rw [h] at hcontra
    have h1 : (synthesize_cmd vp fs none op).get? 9 = some "-crf" := rfl
    have h2 : (synthesize_cmd vp fs (some b) op).get? 9 = some "-b:v" := rfl
    rw [hcontra, h2] at h1
    injection h1 with h3
    exact absurd h3 (by decide)
  · rw [h]
    rfl
  · intro e b
    rw [results_run_video, results_run_video]
    obtain ⟨url, odir, model, lang, key, fetch, c0, dl, c1, wC, wL, wE, c2, tIO, c3,
      sB, sT, sC, sL, sE, c4⟩ := e
    rfl

/-- Witness for `c9_bitrate_fallback`: both ffprobe invocations failing
yields the warning log and the crf command. -/
theorem c9_bitrate_fallback_witness :
    synthesize_prelog (get_video_bitrate none none)
      = ["[WARN] Could not detect bitrate. Using CRF=23 for encoding."]
    ∧ synthesize_cmd "v.mp4" "subs" (get_video_bitrate none none) "o.mp4"
      = ["ffmpeg", "-i", "v.mp4", "-vf", "subs", "-c:v", "libx264", "-preset",
         "medium", "-crf", "23", "-c:a", "copy", "-y", "o.mp4"] :=
  ⟨(c9_bitrate_fallback none none "v.mp4" "subs" "o.mp4" rfl).2.2.1,
   (c9_bitrate_fallback none none "v.mp4" "subs" "o.mp4" rfl).1⟩

/-- Claim C1, counterexample: a Video run cancelled at the post-download
checkpoint emits NO terminal RunResult at all (the `finished` signal is
never fired on that path), and an Audio run whose download is interrupted
by cancellation (the progress hook raises `DownloadCancelled`) terminates
with a `finished(False, ...)` failure result — so neither "exactly one
terminal result per run" nor "cancellation is never reported as a Failed
outcome" holds on the code. -/
theorem c1_counterexample :
    results (run_video (⟨"u", "/out", "small", "en", "k", .ok "T", false, .ok (), true,
        fun _ => false, [], 0, false, .ok (), false, none, 0, fun _ => false, [], 0,
        false⟩ : VideoEnv)) = []
    ∧ results (run_audio (⟨"u", "/out", .ok "T", false,
        .error "DownloadCancelled", false⟩ : AudioEnv))
      = [.finished false "DownloadCancelled" ""] := by
  refine ⟨rfl, rfl⟩

/-- Claim C1, amended: each run emits AT MOST one terminal RunResult, and
it carries only success or failure (there is no Cancelled result value);
a run that returns through a cancellation checkpoint emits no terminal
result at all; a non-cancelled Audio run emits exactly one result; and an
Audio run whose download raises (as cancellation mid-download does, via
`DownloadCancelled` from the progress hook) is reported through the
failure result. -/
theorem c1_terminal_results :
    (∀ e : VideoEnv, (results (run_video e)).length ≤ 1)
    ∧ (∀ e : VideoEnv, results (run_video e) = [] →
        e.c0 = true ∨ e.c1 = true ∨ e.c2 = true ∨ e.c3 = true ∨ e.c4 = true)
    ∧ (∀ e : AudioEnv, (results (run_audio e)).length ≤ 1)
    ∧ (∀ e : AudioEnv, results (run_audio e) = [] → e.c0 = true ∨ e.cEnd = true)
    ∧ (∀ (e : AudioEnv) (t m : String), e.fetch = .ok t → e.c0 = false →
        e.download = .error m → results (run_audio e) = [.finished false m ""])
    ∧ (∀ (e : AudioEnv) (t : String), e.fetch = .ok t → e.c0 = false →
        e.download = .ok () → e.cEnd = false →
        results (run_audio e) =
          [.finished true "Audio download completed successfully!"
            (audio_final_path e.output_dir t)]) := by
  refine ⟨?_, ?_, ?_, ?_, ?_, ?_⟩
  · intro e
    rw [results_run_video]
    unfold video_results_spec
    (repeat' split) <;> simp
  · intro e h
    rw [results_run_video] at h
    unfold video_results_spec at h
    repeat' split at h
    all_goals simp_all
  · intro e
    rw [results_run_audio]
    unfold audio_results_spec
    (repeat' split) <;> simp
  · intro e h
    rw [results_run_audio] at h
    unfold audio_results_spec at h
    repeat' split at h
    all_goals simp_all
  · intro e t m hf hc hd
    obtain ⟨url, odir, fetch, c0, dl, cEnd⟩ := e
    simp only at hf hc hd
    subst hf
    subst hc
    subst hd
    rw [results_run_audio]
    rfl
  · intro e t hf hc hd he
    obtain ⟨url, odir, fetch, c0, dl, cEnd⟩ := e
    simp only at hf hc hd he
    subst hf
    subst hc
    subst hd
    subst he
    rw [results_run_audio]
    rfl

/-- Witness for `c1_terminal_results`: an Audio run whose download raises
`DownloadCancelled` ends in the single failure result. -/
theorem c1_terminal_results_witness :
    results (run_audio (⟨"u", "/d", .ok "Title", false, .error "DownloadCancelled",
        false⟩ : AudioEnv)) = [.finished false "DownloadCancelled" ""] :=
  c1_terminal_results.2.2.2.2.1 _ "Title" "DownloadCancelled" rfl rfl rfl
